import Mathlib

/-!
Shallow embedding of the Memory & Learning Core of the `bit-of-mess`
repository, and proofs settling the frozen claims about it.

Conventions used throughout:
* Python floats are modelled as exact rationals (`ℚ`); `datetime` values are
  modelled as POSIX timestamps in seconds (`ℚ`), so `(a - b).total_seconds()`
  becomes plain subtraction and `(a - b).days` becomes floor division by
  86400.
* Python dicts are association lists with unique keys (`PyDict`); dynamic
  Python values are the inductive `PyVal`.
* Repositories are in-memory lists of records; `save` is the upsert
  (`INSERT OR REPLACE`) of `src/storage/repositories.py`, `delete` removes by
  id, and the `uuid4()` id supply is passed in explicitly as a function from a
  counter to fresh id strings.
-/

/-- Dynamic Python value: a string, a number (floats modelled as exact
rationals), a dict, or a list. -/
inductive PyVal where
  | str (s : String)
  | num (q : ℚ)
  | dict (d : List (String × PyVal))
  | arr (l : List PyVal)
  | none

/-- A Python dict, as an association list whose keys are unique. -/
abbrev PyDict := List (String × PyVal)

namespace PyVal

/-- Python `d.get(key, default)`: the first binding of `key`, else the
default. -/
def dget (d : PyDict) (k : String) (dflt : PyVal) : PyVal :=
  match d.find? (fun kv => kv.1 = k) with
  | Option.some kv => kv.2
  | Option.none => dflt

/-- Python `key in d`. -/
def hasKey (d : PyDict) (k : String) : Bool :=
  (d.find? (fun kv => kv.1 = k)).isSome

/-- Python `d[key] = v`: replace the existing binding in place, else append
(insertion order is preserved, as in Python 3.7+ dicts). -/
def dset (d : PyDict) (k : String) (v : PyVal) : PyDict :=
  if hasKey d k then d.map (fun kv => if kv.1 = k then (k, v) else kv)
  else d ++ [(k, v)]

/-- Python `len` on a dynamic value (on a number Python would raise; the
embedded code never calls it on one, so that case is given the junk value
0). -/
def pyLen : PyVal → ℕ
  | .str s => s.length
  | .num _ => 0
  | .dict d => d.length
  | .arr l => l.length
  | .none => 0

/-- The single-quote character Python's `repr` puts around strings. -/
def pyQuote : String := String.singleton (Char.ofNat 39)

mutual

/-- Python `repr` of a dynamic value.  Numbers are rendered through the
rational's `toString`, a deliberate deviation from CPython float formatting
that only affects the spelling of numeric tokens inside `str(update_data)`
(no claim depends on it). -/
def pyRepr : PyVal → String
  | .str s => pyQuote ++ s ++ pyQuote
  | .num q => toString q
  | .dict d => "\x7b" ++ pyReprFields d ++ "\x7d"
  | .arr l => "[" ++ pyReprItems l ++ "]"
  | .none => "None"

/-- Comma-separated `'key': repr(value)` renderings of a dict's entries. -/
def pyReprFields : List (String × PyVal) → String
  | [] => ""
  | [(k, v)] => pyQuote ++ k ++ pyQuote ++ ": " ++ pyRepr v
  | (k, v) :: rest => pyQuote ++ k ++ pyQuote ++ ": " ++ pyRepr v ++ ", " ++ pyReprFields rest

/-- Comma-separated renderings of a list's items. -/
def pyReprItems : List PyVal → String
  | [] => ""
  | [v] => pyRepr v
  | v :: rest => pyRepr v ++ ", " ++ pyReprItems rest

end

/-- Python `str()`: strings unchanged, everything else via `repr` (matching
f-string interpolation). -/
def pyStr : PyVal → String
  | .str s => s
  | v => pyRepr v

/-- Python equality test of a dynamic value against a string literal
(`data.get(k) == "positive"` and the like). -/
def isStr (v : PyVal) (s : String) : Bool :=
  match v with
  | .str t => t = s
  | _ => false

/-- The value, when it is a string; Python raises at the first `str` method
otherwise.  Also used where the embedding stores a value into a `String`
field (there the conversion errors at write time, where CPython would defer
the type error to the first string operation on the stored value). -/
def asStr : PyVal → Option String
  | .str s => some s
  | _ => Option.none

/-- The value, when it is a number; Python raises at the first arithmetic
use otherwise. -/
def asNum : PyVal → Option ℚ
  | .num q => some q
  | _ => Option.none

end PyVal

/-- Python `text.lower()`. -/
def pyLower (s : String) : String := String.mk (s.data.map Char.toLower)

/-- Worker for `pySplit`: splits on runs of whitespace, accumulating the
current word reversed. -/
def pySplitGo : List Char → List Char → List String
  | [], acc => if acc.isEmpty then [] else [String.mk acc.reverse]
  | c :: rest, acc =>
      if c = ' ' ∨ c = '\t' ∨ c = '\n' ∨ c = '\r' then
        (if acc.isEmpty then pySplitGo rest [] else String.mk acc.reverse :: pySplitGo rest [])
      else pySplitGo rest (c :: acc)

/-- Python `text.split()` (no argument): words separated by runs of
whitespace. -/
def pySplit (s : String) : List String := pySplitGo s.data []

/-- Python `set(text.lower().split())`, as a duplicate-free list. -/
def wordSet (s : String) : List String := (pySplit (pyLower s)).dedup

/-- `Priority` enum of `src/models/base.py`. -/
inductive Priority where
  | low | medium | high | critical
deriving DecidableEq, Repr

/-- `UpdateType` enum of `src/models/learning.py`. -/
inductive UpdateType where
  | behavior_correction
  | preference_refinement
  | explicit_rule
  | behavioral_pattern
  | knowledge_update
deriving DecidableEq, Repr

/-- `MemoryType` enum of `src/models/base.py`. -/
inductive MemoryType where
  | episodic | semantic | procedural | preference
deriving DecidableEq, Repr

/-- `LearningUpdate` dataclass of `src/models/learning.py` (the fields the
core reads; `applied` and `impact_score` are never consulted by the embedded
code paths). -/
structure LearningUpdate where
  id : String
  user_id : String
  type : UpdateType
  confidence : ℚ
  priority : Priority
  update_data : PyDict
  affected_memories : List String
  source : String
  created_at : ℚ

/-- Python `max(0, min(1, x))`. -/
def clamp01 (q : ℚ) : ℚ := max 0 (min 1 q)

namespace Integrator

/-- `LearningIntegrator.priority_order` of `src/learning/integrator.py`. -/
def priority_order : Priority → ℕ
  | .critical => 4
  | .high => 3
  | .medium => 2
  | .low => 1

/-- `_is_more_specific`: `len(u1.update_data.get("context", {})) >
len(u2.update_data.get("context", {})) * 1.5`. -/
def is_more_specific (u1 u2 : LearningUpdate) : Bool :=
  let ctx1 := PyVal.dget u1.update_data "context" (.dict [])
  let ctx2 := PyVal.dget u2.update_data "context" (.dict [])
  decide ((ctx2.pyLen : ℚ) * 1.5 < (ctx1.pyLen : ℚ))

/-- `_check_conflict` of `src/learning/integrator.py`: `none` when the two
updates do not conflict, else the conflict-type string.  Note the source
checks `u1.source == "explicit" and u2.source == "implicit"` in that order
only. -/
def check_conflict (u1 u2 : LearningUpdate) : Option String :=
  if u1.user_id ≠ u2.user_id then none
  else if (u1.affected_memories.inter u2.affected_memories).isEmpty then none
  else if u1.source = "explicit" ∧ u2.source = "implicit" then
    some "explicit_vs_implicit"
  else if |u1.created_at - u2.created_at| < 3600 ∧ u1.type = u2.type then
    some "recent_vs_historical"
  else if is_more_specific u1 u2 || is_more_specific u2 u1 then
    some "specific_vs_general"
  else none

/-- `_detect_conflicts`: all ordered pairs `i < j` with a conflict, as
`(conflict_type, first id, second id)` in scan order. -/
def detect_conflicts : List LearningUpdate → List (String × String × String)
  | [] => []
  | u :: rest =>
      rest.filterMap (fun v => (check_conflict u v).map (fun t => (t, u.id, v.id)))
        ++ detect_conflicts rest

/-- Result dict of `_resolve_conflict`, as a tagged value (the source builds
a dict with `action`, `winner`, `loser` keys; winners and losers are recorded
here by update id). -/
inductive Resolution where
  | discard_loser (winner loser : String)
  | reduce_loser_confidence (winner loser : String)
  | merge_with_recency_weight (winner loser : String)
  | add_exception_to_general (winner loser : String)
  | keep_both

/-- `_resolve_conflict` of `src/learning/integrator.py`, reading the two
update objects in their current (possibly already mutated) state. -/
def resolve_conflict (ctype : String) (u1 u2 : LearningUpdate) : Resolution :=
  if ctype = "explicit_vs_implicit" then
    if u1.source = "explicit" then .discard_loser u1.id u2.id
    else .discard_loser u2.id u1.id
  else if ctype = "recent_vs_historical" then
    if u1.confidence > u2.confidence + 0.2 then
      .reduce_loser_confidence u1.id u2.id
    else if u1.created_at > u2.created_at then
      .merge_with_recency_weight u1.id u2.id
    else
      .merge_with_recency_weight u2.id u1.id
  else if ctype = "specific_vs_general" then
    if is_more_specific u1 u2 then .add_exception_to_general u1.id u2.id
    else .add_exception_to_general u2.id u1.id
  else .keep_both

/-- The update objects of a batch, by id.  Python mutates the objects in
place while conflicts are resolved; the heap records each object's current
field values, whether or not it is still in the working list. -/
abbrev Heap := List (String × LearningUpdate)

/-- Current state of the object with the given id. -/
def heapGet (h : Heap) (i : String) : Option LearningUpdate :=
  match h.find? (fun p => p.1 = i) with
  | some p => some p.2
  | none => none

/-- Mutate the object with the given id in place. -/
def heapMod (h : Heap) (i : String) (f : LearningUpdate → LearningUpdate) : Heap :=
  h.map (fun p => if p.1 = i then (p.1, f p.2) else p)

/-- Working state of `_resolve_conflicts`: the ids still in the `updates`
list (in list order) and the object heap. -/
structure RState where
  active : List String
  heap : Heap

/-- `_apply_resolution` of `src/learning/integrator.py`.  The in-place
mutations (`u.confidence *= ...`, exception append) run only when the loser
is still in the working list, because the source iterates over that list.
Appending an exception to a non-list `"exceptions"` value would raise in
Python; the embedding leaves the dict unchanged in that unreachable case. -/
def apply_resolution (st : RState) (r : Resolution) : RState :=
  match r with
  | .discard_loser _ l => { st with active := st.active.filter (fun i => i ≠ l) }
  | .reduce_loser_confidence _ l =>
      if l ∈ st.active then
        let f := fun (u : LearningUpdate) => { u with confidence := u.confidence * 0.5 }
        { st with heap := heapMod st.heap l f }
      else st
  | .merge_with_recency_weight _ l =>
      if l ∈ st.active then
        let f := fun (u : LearningUpdate) => { u with confidence := u.confidence * 0.7 }
        { st with heap := heapMod st.heap l f }
      else st
  | .add_exception_to_general w l =>
      if l ∈ st.active then
        match heapGet st.heap w with
        | some wu =>
            let exo : PyVal := .dict
              [("context", PyVal.dget wu.update_data "context" (.dict [])),
               ("override_id", .str wu.id)]
            let f := fun (u : LearningUpdate) =>
                let data :=
                  if PyVal.hasKey u.update_data "exceptions" then u.update_data
                  else PyVal.dset u.update_data "exceptions" (.arr [])
                match PyVal.dget data "exceptions" (.arr []) with
                | .arr cur => { u with update_data := PyVal.dset data "exceptions" (.arr (cur ++ [exo])) }
                | _ => { u with update_data := data }
            { st with heap := heapMod st.heap l f }
        | none => st
      else st
  | .keep_both => st

/-- The conflict-resolution loop of `_resolve_conflicts`: conflicts were
detected up front on the original batch; each is resolved against the
objects' current state and the resolution applied. -/
def resolve_conflicts_go (st : RState) : List (String × String × String) → RState
  | [] => st
  | (t, i1, i2) :: rest =>
      match heapGet st.heap i1, heapGet st.heap i2 with
      | some u1, some u2 =>
          resolve_conflicts_go (apply_resolution st (resolve_conflict t u1 u2)) rest
      | _, _ => resolve_conflicts_go st rest

/-- `_check_consistency`: clamp out-of-range confidence, drop updates with an
empty payload. -/
def check_consistency (updates : List LearningUpdate) : List LearningUpdate :=
  updates.filterMap (fun u =>
    let u' := if u.confidence < 0 ∨ u.confidence > 1 then
        { u with confidence := clamp01 u.confidence } else u
    if u'.update_data.isEmpty then none else some u')

/-- Stable insertion of `a` into `l` before the first element it is `le` to;
together with `stableSort` this reproduces Python's stable `sorted`. -/
def pyInsert (le : α → α → Bool) (a : α) : List α → List α
  | [] => [a]
  | b :: l => if le a b then a :: b :: l else b :: pyInsert le a l

/-- Stable insertion sort: the order Python's `sorted` produces for the total
preorder `le`. -/
def stableSort (le : α → α → Bool) : List α → List α
  | [] => []
  | a :: l => pyInsert le a (stableSort le l)

/-- Sort key of `_sort_by_priority`: `(priority_order, confidence,
created_at.timestamp())`. -/
def sort_key (u : LearningUpdate) : ℕ × ℚ × ℚ :=
  (priority_order u.priority, u.confidence, u.created_at)

/-- Lexicographic `≤` on sort keys. -/
def keyLe (a b : ℕ × ℚ × ℚ) : Bool :=
  decide (a.1 < b.1 ∨ (a.1 = b.1 ∧ (a.2.1 < b.2.1 ∨ (a.2.1 = b.2.1 ∧ a.2.2 ≤ b.2.2))))

/-- `_sort_by_priority`: Python's stable `sorted(..., reverse=True)` on the
key, i.e. descending with ties kept in original order. -/
def sort_by_priority (updates : List LearningUpdate) : List LearningUpdate :=
  stableSort (fun a b => keyLe (sort_key b) (sort_key a)) updates

/-- `LearningIntegrator.integrate` of `src/learning/integrator.py`. -/
def integrate (updates : List LearningUpdate) : List LearningUpdate :=
  if updates.isEmpty then []
  else
    let st0 : RState := { active := updates.map (fun u => u.id),
                          heap := updates.map (fun u => (u.id, u)) }
    let st := resolve_conflicts_go st0 (detect_conflicts updates)
    let resolved := st.active.filterMap (heapGet st.heap)
    sort_by_priority (check_consistency resolved)

end Integrator

namespace Integrator

theorem mem_pyInsert {le : α → α → Bool} {a b : α} {l : List α} :
    b ∈ pyInsert le a l ↔ b = a ∨ b ∈ l := by
  induction l with
  | nil => simp [pyInsert]
  | cons c l ih =>
      simp only [pyInsert]
      split
      · simp
      · simp [ih]; tauto

theorem length_pyInsert {le : α → α → Bool} (a : α) (l : List α) :
    (pyInsert le a l).length = l.length + 1 := by
  induction l with
  | nil => rfl
  | cons c l ih =>
      simp only [pyInsert]
      split
      · simp
      · simp [ih]

theorem mem_stableSort {le : α → α → Bool} {a : α} {l : List α} :
    a ∈ stableSort le l ↔ a ∈ l := by
  induction l with
  | nil => simp [stableSort]
  | cons c l ih => simp [stableSort, mem_pyInsert, ih]

theorem length_stableSort {le : α → α → Bool} (l : List α) :
    (stableSort le l).length = l.length := by
  induction l with
  | nil => rfl
  | cons c l ih => simp [stableSort, length_pyInsert, ih]

end Integrator

/-- Batch fixture: an explicit-source `explicit_rule` update (mirrors the
conflict test of `tests/test_learning.py`). -/
def exUpd : LearningUpdate :=
  { id := "ex-1", user_id := "test_user", type := .explicit_rule,
    confidence := 0.99, priority := .critical,
    update_data := [("rule", .str "never before 9am")],
    affected_memories := ["preference"], source := "explicit", created_at := 1000 }

/-- Batch fixture: an implicit-source `preference_refinement` update for the
same user, sharing the `"preference"` affected kind with `exUpd`. -/
def imUpd : LearningUpdate :=
  { id := "im-1", user_id := "test_user", type := .preference_refinement,
    confidence := 0.6, priority := .medium,
    update_data := [("pattern", .str "usually schedules at 8am")],
    affected_memories := ["preference"], source := "implicit", created_at := 1000 }

/-- C1 counterexample: with the implicit update listed before the explicit
one, `_check_conflict` (which tests `u1.source == "explicit" and u2.source ==
"implicit"` in that order only) finds no conflict, so the implicit update
survives integration — the claim's "regardless of their order in the batch"
is false. -/
theorem C1_counterexample :
    imUpd.source = "implicit" ∧ exUpd.source = "explicit" ∧
    imUpd.user_id = exUpd.user_id ∧
    "preference" ∈ imUpd.affected_memories ∧ "preference" ∈ exUpd.affected_memories ∧
    (Integrator.integrate [imUpd, exUpd]).map (fun u => u.id) = ["ex-1", "im-1"] :=
  ⟨rfl, rfl, rfl, by decide, by decide, by with_unfolding_all rfl⟩

/-- C1 (amended): for a two-element batch whose explicit-source update
precedes the implicit-source one, with the same user, a shared affected
memory kind, distinct ids, a non-empty payload and in-range confidence on
the explicit update, `integrate` drops the implicit update and returns the
explicit update unmodified. -/
theorem C1_explicit_beats_implicit (e i : LearningUpdate)
    (h1 : e.user_id = i.user_id)
    (h2 : (e.affected_memories.inter i.affected_memories).isEmpty = false)
    (h3 : e.source = "explicit") (h4 : i.source = "implicit")
    (h5 : e.id ≠ i.id)
    (h6 : e.update_data ≠ [])
    (h7 : 0 ≤ e.confidence) (h8 : e.confidence ≤ 1) :
    Integrator.integrate [e, i] = [e] := by
  have hc : Integrator.check_conflict e i = some "explicit_vs_implicit" := by
    simp [Integrator.check_conflict, h1, h2, h3, h4]
  have hnlt : ¬ (e.confidence < 0) := not_lt.mpr h7
  have hngt : ¬ (e.confidence > 1) := not_lt.mpr h8
  simp [Integrator.integrate, Integrator.detect_conflicts, hc,
    Integrator.resolve_conflicts_go, Integrator.heapGet, Integrator.resolve_conflict,
    h3, Integrator.apply_resolution, h5, Ne.symm h5,
    Integrator.check_consistency, hnlt, hngt, List.isEmpty_iff, h6,
    Integrator.sort_by_priority, Integrator.stableSort, Integrator.pyInsert]

/-- Witness for C1: the amended theorem applied to the concrete fixture
batch. -/
theorem C1_explicit_beats_implicit_witness :
    Integrator.integrate [exUpd, imUpd] = [exUpd] :=
  C1_explicit_beats_implicit exUpd imUpd rfl (by decide) rfl rfl
    (by decide) (by simp [exUpd]) (by norm_num [exUpd]) (by norm_num [exUpd])

/-- Batch fixture: a high-confidence `preference_refinement` update. -/
def recUpd : LearningUpdate :=
  { id := "rec-1", user_id := "test_user", type := .preference_refinement,
    confidence := 0.9, priority := .medium,
    update_data := [("preference", .str "short answers")],
    affected_memories := ["preference"], source := "implicit", created_at := 0 }

/-- Batch fixture: a low-confidence update of the same type, user and
affected kind, created at the same time as `recUpd` (confidence gap 0.4). -/
def histUpd : LearningUpdate :=
  { id := "hist-1", user_id := "test_user", type := .preference_refinement,
    confidence := 0.5, priority := .medium,
    update_data := [("preference", .str "long answers")],
    affected_memories := ["preference"], source := "implicit", created_at := 0 }

/-- C2 counterexample: a `recent_vs_historical` conflict with confidence gap
0.4 > 0.2.  The claim says the lower-confidence update is absent from the
output; in the source the resolution action is `reduce_loser_confidence`,
which multiplies the loser's confidence by 0.5 and keeps it, so both updates
are returned. -/
theorem C2_counterexample :
    |recUpd.confidence - histUpd.confidence| > 0.2 ∧
    recUpd.type = histUpd.type ∧ recUpd.user_id = histUpd.user_id ∧
    |recUpd.created_at - histUpd.created_at| < 3600 ∧
    "preference" ∈ recUpd.affected_memories ∧ "preference" ∈ histUpd.affected_memories ∧
    (Integrator.integrate [recUpd, histUpd]).map (fun u => u.id) = ["rec-1", "hist-1"] ∧
    (Integrator.integrate [recUpd, histUpd]).map (fun u => u.confidence) = [0.9, 0.25] :=
  ⟨by norm_num [recUpd, histUpd, abs_of_nonneg], rfl, rfl, by norm_num [recUpd, histUpd, abs_of_nonneg],
   by decide, by decide, by with_unfolding_all rfl, by with_unfolding_all rfl⟩

/-- C2 (amended): for a two-element batch `[u1, u2]` of same-user, same-type
updates sharing an affected kind and created within one hour (and not an
explicit-before-implicit pair, which the first conflict rule captures
instead): when `u1.confidence > u2.confidence + 0.2` both updates remain and
`u2`'s confidence is multiplied by 0.5 (not dropped); otherwise both remain
and the older update's confidence (that of `u1` on a timestamp tie) is
multiplied by 0.7. -/
theorem C2_recent_vs_historical (u1 u2 : LearningUpdate)
    (h1 : u1.user_id = u2.user_id)
    (h2 : (u1.affected_memories.inter u2.affected_memories).isEmpty = false)
    (h3 : ¬(u1.source = "explicit" ∧ u2.source = "implicit"))
    (h4 : |u1.created_at - u2.created_at| < 3600)
    (h5 : u1.type = u2.type)
    (h6 : u1.id ≠ u2.id)
    (h7 : u1.update_data ≠ []) (h8 : u2.update_data ≠ [])
    (h9 : 0 ≤ u1.confidence) (h10 : u1.confidence ≤ 1)
    (h11 : 0 ≤ u2.confidence) (h12 : u2.confidence ≤ 1) :
    (u1.confidence > u2.confidence + 0.2 →
      u1 ∈ Integrator.integrate [u1, u2] ∧
      { u2 with confidence := u2.confidence * 0.5 } ∈ Integrator.integrate [u1, u2] ∧
      (Integrator.integrate [u1, u2]).length = 2) ∧
    (¬(u1.confidence > u2.confidence + 0.2) → u1.created_at > u2.created_at →
      u1 ∈ Integrator.integrate [u1, u2] ∧
      { u2 with confidence := u2.confidence * 0.7 } ∈ Integrator.integrate [u1, u2] ∧
      (Integrator.integrate [u1, u2]).length = 2) ∧
    (¬(u1.confidence > u2.confidence + 0.2) → ¬(u1.created_at > u2.created_at) →
      { u1 with confidence := u1.confidence * 0.7 } ∈ Integrator.integrate [u1, u2] ∧
      u2 ∈ Integrator.integrate [u1, u2] ∧
      (Integrator.integrate [u1, u2]).length = 2) := by
  have hc : Integrator.check_conflict u1 u2 = some "recent_vs_historical" := by
    simp [Integrator.check_conflict, h1, h2, h3, h4, h5]
  have hn1 : ¬ (u1.confidence < 0) := not_lt.mpr h9
  have hg1 : ¬ (u1.confidence > 1) := not_lt.mpr h10
  have hn2 : ¬ (u2.confidence < 0) := not_lt.mpr h11
  have hg2 : ¬ (u2.confidence > 1) := not_lt.mpr h12
  have hn2' : ¬ (u2.confidence * 0.5 < 0) := by
    refine not_lt.mpr ?_; positivity
  have hg2' : ¬ (u2.confidence * 0.5 > 1) := by
    refine not_lt.mpr ?_
    calc u2.confidence * 0.5 ≤ 1 * 0.5 := by nlinarith
      _ ≤ 1 := by norm_num
  have hn2'' : ¬ (u2.confidence * 0.7 < 0) := by
    refine not_lt.mpr ?_; positivity
  have hg2'' : ¬ (u2.confidence * 0.7 > 1) := by
    refine not_lt.mpr ?_
    calc u2.confidence * 0.7 ≤ 1 * 0.7 := by nlinarith
      _ ≤ 1 := by norm_num
  have hn1'' : ¬ (u1.confidence * 0.7 < 0) := by
    refine not_lt.mpr ?_; positivity
  have hg1'' : ¬ (u1.confidence * 0.7 > 1) := by
    refine not_lt.mpr ?_
    calc u1.confidence * 0.7 ≤ 1 * 0.7 := by nlinarith
      _ ≤ 1 := by norm_num
  refine ⟨fun hgap => ?_, fun hgap htime => ?_, fun hgap htime => ?_⟩
  · simp [Integrator.integrate, Integrator.detect_conflicts, hc,
      Integrator.resolve_conflicts_go, Integrator.heapGet, Integrator.resolve_conflict,
      hgap, Integrator.apply_resolution, Integrator.heapMod, h6, Ne.symm h6,
      Integrator.check_consistency, hn1, hg1, hn2', hg2', List.isEmpty_iff, h7, h8,
      Integrator.sort_by_priority, Integrator.mem_stableSort, Integrator.length_stableSort]
  · simp [Integrator.integrate, Integrator.detect_conflicts, hc,
      Integrator.resolve_conflicts_go, Integrator.heapGet, Integrator.resolve_conflict,
      hgap, htime, Integrator.apply_resolution, Integrator.heapMod, h6, Ne.symm h6,
      Integrator.check_consistency, hn1, hg1, hn2'', hg2'', List.isEmpty_iff, h7, h8,
      Integrator.sort_by_priority, Integrator.mem_stableSort, Integrator.length_stableSort]
  · simp [Integrator.integrate, Integrator.detect_conflicts, hc,
      Integrator.resolve_conflicts_go, Integrator.heapGet, Integrator.resolve_conflict,
      hgap, htime, Integrator.apply_resolution, Integrator.heapMod, h6, Ne.symm h6,
      Integrator.check_consistency, hn2, hg2, hn1'', hg1'', List.isEmpty_iff, h7, h8,
      Integrator.sort_by_priority, Integrator.mem_stableSort, Integrator.length_stableSort]

/-- Witness for C2: the amended theorem applied to the concrete pair with
confidence gap 0.4. -/
theorem C2_recent_vs_historical_witness :
    recUpd ∈ Integrator.integrate [recUpd, histUpd] ∧
    { histUpd with confidence := histUpd.confidence * 0.5 } ∈ Integrator.integrate [recUpd, histUpd] ∧
    (Integrator.integrate [recUpd, histUpd]).length = 2 :=
  (C2_recent_vs_historical recUpd histUpd rfl (by decide)
    (by simp [recUpd, histUpd]) (by norm_num [recUpd, histUpd]) rfl (by decide)
    (by simp [recUpd]) (by simp [histUpd])
    (by norm_num [recUpd]) (by norm_num [recUpd])
    (by norm_num [histUpd]) (by norm_num [histUpd])).1
    (by norm_num [recUpd, histUpd])

/-- `MemoryEntry` dataclass of `src/models/memory.py` (the fields the core
reads; timestamps are POSIX seconds). -/
structure MemoryEntry where
  id : String
  user_id : String
  memory_type : MemoryType
  content : String
  embedding : Option (List ℚ)
  importance : ℚ
  access_count : ℕ
  last_accessed : ℤ
  context_tags : PyVal
  metadata : PyVal

/-- `PreferenceNode` dataclass of `src/models/memory.py`.  The `preference`
text and `category` are `String`s (see `PyVal.asStr` on the write-time
conversion). -/
structure PreferenceNode where
  id : String
  user_id : String
  category : String
  preference : String
  strength : ℚ
  confidence : ℚ
  examples : List PyVal
  exceptions : List PyVal
  source : String
  created_at : ℤ
  updated_at : ℤ

/-- `Rule` dataclass of `src/models/memory.py`; `condition`, `action`,
`strength` and `exceptions` are stored verbatim as the dynamic values the
updater passes in. -/
structure Rule where
  id : String
  user_id : String
  condition : PyVal
  action : PyVal
  strength : PyVal
  exceptions : PyVal
  source : String
  created_at : ℤ

/-- The three durable stores behind `MemoryRepository`,
`PreferenceRepository` and `RuleRepository`. -/
structure Stores where
  memories : List MemoryEntry
  prefs : List PreferenceNode
  rules : List Rule

/-- `INSERT OR REPLACE` keyed on `id`: replace the row with the same id in
place, else append. -/
def upsertBy (key : α → String) (a : α) (l : List α) : List α :=
  if l.any (fun x => key x = key a) then
    l.map (fun x => if key x = key a then a else x)
  else l ++ [a]

/-- `MemoryRepository.save`. -/
def Stores.saveMemory (st : Stores) (m : MemoryEntry) : Stores :=
  { st with memories := upsertBy (fun x => x.id) m st.memories }

/-- `PreferenceRepository.save`. -/
def Stores.savePref (st : Stores) (p : PreferenceNode) : Stores :=
  { st with prefs := upsertBy (fun x => x.id) p st.prefs }

/-- `RuleRepository.save`. -/
def Stores.saveRule (st : Stores) (r : Rule) : Stores :=
  { st with rules := upsertBy (fun x => x.id) r st.rules }

/-- Truthiness of the `category` argument (`if category:` in the repository
query builder). -/
def pyTruthy : PyVal → Bool
  | .str s => s ≠ ""
  | .num q => decide (q ≠ 0)
  | .dict d => !d.isEmpty
  | .arr l => !l.isEmpty
  | .none => false

/-- SQL `category = ?` against a dynamic parameter: only a string parameter
can equal a `TEXT` column value. -/
def catMatches (cat : PyVal) (p : PreferenceNode) : Bool :=
  match cat with
  | .str c => p.category = c
  | _ => false

/-- `PreferenceRepository.get_by_user` of `src/storage/repositories.py`:
`WHERE user_id = ?` with an optional truthy category filter, `ORDER BY
strength DESC` (the embedding uses a stable sort to make the
SQL-unspecified tie order deterministic). -/
def get_prefs_by_user (prefs : List PreferenceNode) (user : String) (cat : PyVal) : List PreferenceNode :=
  let base := prefs.filter (fun p => p.user_id = user)
  let base := if pyTruthy cat then base.filter (catMatches cat) else base
  Integrator.stableSort (fun a b => decide (b.strength ≤ a.strength)) base

/-- `PreferenceRepository.update_strength`: `UPDATE preferences SET strength
= ?, updated_at = ? WHERE id = ?`. -/
def Stores.updateStrength (st : Stores) (id : String) (ns : ℚ) (now : ℤ) : Stores :=
  { st with prefs := st.prefs.map (fun p =>
      if p.id = id then { p with strength := ns, updated_at := now } else p) }

namespace Updater

/-- `_text_similarity` of `src/learning/knowledge_updater.py`: Jaccard
overlap of the two word sets. -/
def text_similarity (text1 text2 : String) : ℚ :=
  let words1 := wordSet text1
  let words2 := wordSet text2
  if words1.isEmpty ∨ words2.isEmpty then 0
  else
    let overlap := (words1.inter words2).length
    let total := (words1.union words2).length
    if total > 0 then (overlap : ℚ) / (total : ℚ) else 0

/-- `MemoryType(value)`: the enum constructor, `none` on the `ValueError`
raised for an unknown value. -/
def parseMemoryType : String → Option MemoryType
  | "episodic" => some .episodic
  | "semantic" => some .semantic
  | "procedural" => some .procedural
  | "preference" => some .preference
  | _ => Option.none

/-- Result of applying one update: whether it succeeded, and the store and
uuid counter afterwards.  On failure the store keeps every write made before
the raising statement, as the Python exception would. -/
abbrev AppRes := Bool × Stores × ℕ

/-- `_apply_behavior_correction`: a procedural memory at importance 0.9,
plus an optional rule when the payload carries a `"rule"` dict (reading
attributes of a non-dict value raises, after the memory was already
saved). -/
def apply_behavior_correction (uuid : ℕ → String) (now : ℤ)
    (u : LearningUpdate) (st : Stores) (k : ℕ) : AppRes :=
  let data := u.update_data
  let memory : MemoryEntry :=
    { id := uuid k, user_id := u.user_id, memory_type := .procedural,
      content := "When " ++ PyVal.pyStr (PyVal.dget data "incorrect_action" (.str ""))
        ++ ": Instead do " ++ PyVal.pyStr (PyVal.dget data "correct_action" (.str "")),
      embedding := Option.none, importance := 0.9, access_count := 0,
      last_accessed := now,
      context_tags := .arr [.str "correction", .str "behavior"],
      metadata := .dict [("update_id", .str u.id),
                         ("context", PyVal.dget data "context" (.dict []))] }
  let st1 := st.saveMemory memory
  if PyVal.hasKey data "rule" then
    match PyVal.dget data "rule" (.dict []) with
    | .dict rd =>
        let rule : Rule :=
          { id := uuid (k + 1), user_id := u.user_id,
            condition := PyVal.dget rd "condition" (.str ""),
            action := PyVal.dget rd "action" (.str ""),
            strength := PyVal.dget rd "strength" (.num 1),
            exceptions := .arr [], source := "learned_correction", created_at := now }
        (true, st1.saveRule rule, k + 2)
    | _ => (false, st1, k + 1)
  else (true, st1, k + 1)

/-- The reinforcement loop of `_apply_preference_refinement`: for every
preference of the snapshot whose text overlaps the behavior by more than
0.5, blend the strength by the payload's boost/reduction amount.  `positive`
selects `min(1, s + boost)` versus `max(0, s - reduction)`. -/
def refine_loop (behavior delta : PyVal) (positive : Bool) (now : ℤ) :
    List PreferenceNode → Stores → Bool × Stores
  | [], st => (true, st)
  | p :: rest, st =>
      match PyVal.asStr behavior with
      | Option.none => (false, st)
      | Option.some b =>
          if text_similarity p.preference b > 0.5 then
            match PyVal.asNum delta with
            | Option.none => (false, st)
            | Option.some d =>
                let ns := if positive then min 1 (p.strength + d) else max 0 (p.strength - d)
                refine_loop behavior delta positive now rest (st.updateStrength p.id ns now)
          else refine_loop behavior delta positive now rest st

/-- `_apply_preference_refinement` of `src/learning/knowledge_updater.py`. -/
def apply_preference_refinement (uuid : ℕ → String) (now : ℤ)
    (u : LearningUpdate) (st : Stores) (k : ℕ) : AppRes :=
  let data := u.update_data
  let reinf := PyVal.dget data "reinforcement" .none
  if PyVal.isStr reinf "positive" then
    let cat := PyVal.dget data "category" (.str "general")
    let prefs := get_prefs_by_user st.prefs u.user_id cat
    let behavior := PyVal.dget data "behavior" (.str "")
    let boost := PyVal.dget data "strength_boost" (.num 0.1)
    let (ok, st') := refine_loop behavior boost true now prefs st
    (ok, st', k)
  else if PyVal.isStr reinf "negative" then
    let cat := PyVal.dget data "category" (.str "general")
    let prefs := get_prefs_by_user st.prefs u.user_id cat
    let behavior := PyVal.dget data "behavior" (.str "")
    let reduction := PyVal.dget data "strength_reduction" (.num 0.2)
    let (ok, st') := refine_loop behavior reduction false now prefs st
    (ok, st', k)
  else
    match PyVal.asStr (PyVal.dget data "preference" (PyVal.dget data "inferred_preference" (.str ""))) with
    | Option.none => (false, st, k)
    | Option.some prefText =>
        match PyVal.asStr (PyVal.dget data "category" (.str "general")) with
        | Option.none => (false, st, k)
        | Option.some cat =>
            match PyVal.asNum (PyVal.dget data "strength" (.num u.confidence)) with
            | Option.none => (false, st, k)
            | Option.some s =>
                let node : PreferenceNode :=
                  { id := uuid k, user_id := u.user_id, category := cat,
                    preference := prefText, strength := s, confidence := u.confidence,
                    examples := [], exceptions := [], source := u.source,
                    created_at := now, updated_at := now }
                (true, st.savePref node, k + 1)

/-- `_apply_explicit_rule`: a rule (stored verbatim) plus a companion
preference at strength 1.0 and confidence 0.99. -/
def apply_explicit_rule (uuid : ℕ → String) (now : ℤ)
    (u : LearningUpdate) (st : Stores) (k : ℕ) : AppRes :=
  let data := u.update_data
  let rule : Rule :=
    { id := uuid k, user_id := u.user_id,
      condition := PyVal.dget data "condition" (.str ""),
      action := PyVal.dget data "action" (.str ""),
      strength := PyVal.dget data "strength" (.num 1),
      exceptions := PyVal.dget data "exceptions" (.arr []),
      source := "user_explicit", created_at := now }
  let st1 := st.saveRule rule
  let pref : PreferenceNode :=
    { id := uuid (k + 1), user_id := u.user_id, category := "rules",
      preference := PyVal.pyStr (PyVal.dget data "condition" (.str ""))
        ++ " -> " ++ PyVal.pyStr (PyVal.dget data "action" (.str "")),
      strength := 1, confidence := 0.99, examples := [], exceptions := [],
      source := "explicit", created_at := now, updated_at := now }
  (true, st1.savePref pref, k + 2)

/-- The `pattern_shifts` loop of `_apply_behavioral_pattern`: one semantic
memory per dict-shaped shift. -/
def pattern_shift_loop (uuid : ℕ → String) (now : ℤ) (user : String) :
    List PyVal → Stores → ℕ → AppRes
  | [], st, k => (true, st, k)
  | s :: rest, st, k =>
      match s with
      | .dict d =>
          match PyVal.asNum (PyVal.dget d "confidence" (.num 0.5)) with
          | Option.none => (false, st, k)
          | Option.some imp =>
              let memory : MemoryEntry :=
                { id := uuid k, user_id := user, memory_type := .semantic,
                  content := "Pattern shift: " ++ PyVal.pyStr (PyVal.dget d "pattern_type" (.str ""))
                    ++ " changed from " ++ PyVal.pyStr (PyVal.dget d "old_pattern" (.dict []))
                    ++ " to " ++ PyVal.pyStr (PyVal.dget d "new_pattern" (.dict [])),
                  embedding := Option.none, importance := imp, access_count := 0,
                  last_accessed := now,
                  context_tags := .arr [.str "pattern", .str "behavioral"],
                  metadata := s }
              pattern_shift_loop uuid now user rest (st.saveMemory memory) (k + 1)
      | _ => (false, st, k)

/-- The `inferred_preferences` loop of `_apply_behavioral_pattern`: one
preference node per dict-shaped entry, at source `"inferred"`. -/
def inferred_pref_loop (uuid : ℕ → String) (now : ℤ) (user : String) :
    List PyVal → Stores → ℕ → AppRes
  | [], st, k => (true, st, k)
  | s :: rest, st, k =>
      match s with
      | .dict d =>
          match PyVal.asStr (PyVal.dget d "category" (.str "behavioral")),
                PyVal.asStr (PyVal.dget d "preference" (.str "")),
                PyVal.asNum (PyVal.dget d "confidence" (.num 0.5)) with
          | Option.some cat, Option.some prefText, Option.some c =>
              let node : PreferenceNode :=
                { id := uuid k, user_id := user, category := cat,
                  preference := prefText, strength := c, confidence := c,
                  examples := [], exceptions := [], source := "inferred",
                  created_at := now, updated_at := now }
              inferred_pref_loop uuid now user rest (st.savePref node) (k + 1)
          | _, _, _ => (false, st, k)
      | _ => (false, st, k)

/-- `_apply_behavioral_pattern` of `src/learning/knowledge_updater.py`. -/
def apply_behavioral_pattern (uuid : ℕ → String) (now : ℤ)
    (u : LearningUpdate) (st : Stores) (k : ℕ) : AppRes :=
  let data := u.update_data
  match PyVal.dget data "pattern_shifts" (.arr []) with
  | .arr shifts =>
      match pattern_shift_loop uuid now u.user_id shifts st k with
      | (false, st', k') => (false, st', k')
      | (true, st1, k1) =>
          match PyVal.dget data "inferred_preferences" (.arr []) with
          | .arr prefsData => inferred_pref_loop uuid now u.user_id prefsData st1 k1
          | _ => (false, st1, k1)
  | _ => (false, st, k)

/-- `_apply_knowledge_update`: a generic memory write at importance equal to
the update's confidence; an unknown `memory_type` string raises
(`ValueError` from the enum constructor). -/
def apply_knowledge_update (uuid : ℕ → String) (now : ℤ)
    (u : LearningUpdate) (st : Stores) (k : ℕ) : AppRes :=
  let data := u.update_data
  match PyVal.asStr (PyVal.dget data "memory_type" (.str "semantic")) with
  | Option.none => (false, st, k)
  | Option.some mts =>
      match parseMemoryType mts with
      | Option.none => (false, st, k)
      | Option.some mt =>
          match PyVal.asStr (PyVal.dget data "content" (.str "")) with
          | Option.none => (false, st, k)
          | Option.some content =>
              let memory : MemoryEntry :=
                { id := uuid k, user_id := u.user_id, memory_type := mt,
                  content := content, embedding := Option.none,
                  importance := u.confidence, access_count := 0,
                  last_accessed := now,
                  context_tags := PyVal.dget data "tags" (.arr []),
                  metadata := PyVal.dget data "metadata" (.dict []) }
              (true, st.saveMemory memory, k + 1)

/-- `_apply_single_update`: dispatch on the update type. -/
def apply_single_update (uuid : ℕ → String) (now : ℤ)
    (u : LearningUpdate) (st : Stores) (k : ℕ) : AppRes :=
  match u.type with
  | .behavior_correction => apply_behavior_correction uuid now u st k
  | .preference_refinement => apply_preference_refinement uuid now u st k
  | .explicit_rule => apply_explicit_rule uuid now u st k
  | .behavioral_pattern => apply_behavioral_pattern uuid now u st k
  | .knowledge_update => apply_knowledge_update uuid now u st k

/-- `KnowledgeUpdater.apply_updates` priority order (ascending rank). -/
def priority_rank : Priority → ℕ
  | .critical => 0
  | .high => 1
  | .medium => 2
  | .low => 3

/-- The in-place `updates.sort(...)` of `apply_updates`: Python's stable
ascending sort on the priority rank. -/
def sort_updates (updates : List LearningUpdate) : List LearningUpdate :=
  Integrator.stableSort (fun a b => decide (priority_rank a.priority ≤ priority_rank b.priority)) updates

/-- The apply loop of `apply_updates`: a failed update is caught, its id is
not appended, and the loop continues from the partial state the failure left
behind. -/
def apply_updates_go (uuid : ℕ → String) (now : ℤ) :
    List LearningUpdate → Stores → ℕ → List String × Stores × ℕ
  | [], st, k => ([], st, k)
  | u :: rest, st, k =>
      let r := apply_single_update uuid now u st k
      let rest' := apply_updates_go uuid now rest r.2.1 r.2.2
      (if r.1 then u.id :: rest'.1 else rest'.1, rest'.2)

/-- `KnowledgeUpdater.apply_updates` of `src/learning/knowledge_updater.py`. -/
def apply_updates (uuid : ℕ → String) (now : ℤ)
    (updates : List LearningUpdate) (st : Stores) (k : ℕ) : List String × Stores × ℕ :=
  apply_updates_go uuid now (sort_updates updates) st k

end Updater

/-- Deterministic stand-in for the `uuid4()` supply. -/
def idgen : ℕ → String := fun n => "gen-" ++ toString n

/-- Scenario fixture: a valid `explicit_rule` update. -/
def ruleUpd : LearningUpdate :=
  { id := "rule-u", user_id := "test_user", type := .explicit_rule,
    confidence := 0.99, priority := .critical,
    update_data := [("condition", .str "before 9am"), ("action", .str "decline meetings")],
    affected_memories := ["preference"], source := "explicit", created_at := 0 }

/-- Scenario fixture: a `preference_refinement` update with an empty
payload. -/
def emptyRefineUpd : LearningUpdate :=
  { id := "pref-u", user_id := "test_user", type := .preference_refinement,
    confidence := 0.7, priority := .high, update_data := [],
    affected_memories := ["preference"], source := "implicit", created_at := 0 }

/-- Empty repositories. -/
def stEmpty : Stores := { memories := [], prefs := [], rules := [] }

/-- C3 counterexample: `apply_updates([valid explicit_rule, empty-payload
preference_refinement])` applies BOTH updates.  With an empty payload,
`_apply_preference_refinement` takes the create-new-preference branch with
all defaults (empty preference text, strength = the update's confidence) and
succeeds, so two ids are returned, not one. -/
theorem C3_counterexample :
    emptyRefineUpd.update_data = [] ∧
    (Updater.apply_updates idgen 0 [ruleUpd, emptyRefineUpd] stEmpty 0).1 = ["rule-u", "pref-u"] ∧
    (Updater.apply_updates idgen 0 [ruleUpd, emptyRefineUpd] stEmpty 0).1.length = 2 :=
  ⟨rfl, by with_unfolding_all rfl, by with_unfolding_all rfl⟩

/-- C3 (amended): the empty-payload scenario applies both updates (see the
counterexample); the partial-failure half of the claim does hold: wherever
an update `u` sits in the processed batch, its application is attempted from
the state the prefix left, its id is appended only when it succeeds, and the
remaining updates are still processed from the (possibly partial) state its
application left behind. -/
theorem C3_partial_failure (uuid : ℕ → String) (now : ℤ)
    (pre post : List LearningUpdate) (u : LearningUpdate) (st : Stores) (k : ℕ) :
    Updater.apply_updates_go uuid now (pre ++ u :: post) st k =
      (let r1 := Updater.apply_updates_go uuid now pre st k
       let r2 := Updater.apply_single_update uuid now u r1.2.1 r1.2.2
       let r3 := Updater.apply_updates_go uuid now post r2.2.1 r2.2.2
       (r1.1 ++ (if r2.1 then [u.id] else []) ++ r3.1, r3.2)) := by
  induction pre generalizing st k with
  | nil =>
      simp only [List.nil_append, Updater.apply_updates_go]
      split <;> simp_all
  | cons v pre ih =>
      simp only [List.cons_append, Updater.apply_updates_go, List.append_eq]
      rw [ih]
      split <;> simp_all

/-- The attachment of the adaptive learning rate in
`PersonalAgentSystem._apply_learning` of `src/core/central_system.py`:
`update.update_data["learning_rate"] = learning_rate`. -/
def with_learning_rate (u : LearningUpdate) (r : ℚ) : LearningUpdate :=
  { u with update_data := PyVal.dset u.update_data "learning_rate" (.num r) }

/-- Fixture: an existing preference the refinement update matches. -/
def c8Pref : PreferenceNode :=
  { id := "p1", user_id := "test_user", category := "communication",
    preference := "short answers please", strength := 0.5, confidence := 0.8,
    examples := [], exceptions := [], source := "explicit",
    created_at := 0, updated_at := 0 }

/-- Fixture store holding only `c8Pref`. -/
def c8St : Stores := { memories := [], prefs := [c8Pref], rules := [] }

/-- Fixture: a positive-reinforcement `preference_refinement` update whose
behavior text matches `c8Pref`. -/
def c8Upd : LearningUpdate :=
  { id := "c8-u", user_id := "test_user", type := .preference_refinement,
    confidence := 0.75, priority := .medium,
    update_data := [("reinforcement", .str "positive"),
                    ("category", .str "communication"),
                    ("behavior", .str "short answers please")],
    affected_memories := ["preference"], source := "implicit", created_at := 0 }

/-- C8 (code bug): the learning rates 0.3 and 0.03 are genuinely attached to
the update's payload, yet `apply_updates` produces the identical store state
for both — the strength boost is the payload's `strength_boost` default 0.1
(`0.5 ↦ 0.6`), and the `"learning_rate"` key is never read, so the adaptive
rate is discarded rather than consumed as a throttle. -/
theorem C8_learning_rate_discarded :
    PyVal.dget (with_learning_rate c8Upd (3/10)).update_data "learning_rate" .none = .num (3/10) ∧
    PyVal.dget (with_learning_rate c8Upd (3/100)).update_data "learning_rate" .none = .num (3/100) ∧
    (3/10 : ℚ) ≠ 3/100 ∧
    Updater.apply_updates idgen 0 [with_learning_rate c8Upd (3/10)] c8St 0 =
      Updater.apply_updates idgen 0 [with_learning_rate c8Upd (3/100)] c8St 0 ∧
    ((Updater.apply_updates idgen 0 [with_learning_rate c8Upd (3/10)] c8St 0).2.1.prefs.map
      (fun p => p.strength)) = [0.6] :=
  ⟨by with_unfolding_all rfl, by with_unfolding_all rfl, by norm_num,
   by with_unfolding_all rfl, by with_unfolding_all rfl⟩

namespace VectorStore

/-- Dot product as `np.dot` computes it after `_cosine_similarity` zero-pads
the shorter vector: the padded tail contributes nothing, so the sum over the
common prefix is the same number. -/
def dot (a b : List ℚ) : ℚ := (List.zipWith (fun x y => x * y) a b).sum

/-- Sum of squares — the square of `np.linalg.norm`. -/
def sumSq (a : List ℚ) : ℚ := dot a a

/-- The comparison `_cosine_similarity(a, b) > t` of
`src/memory/vector_store.py`, decided exactly over the rationals for a
threshold `t > 0`: the function returns `0.0` when either norm is zero, and
otherwise `dot/(‖a‖·‖b‖) > t` iff the dot product is positive and
`dot² > t²·‖a‖²·‖b‖²` (square both sides of the inequality; `‖v‖² = sumSq
v`). -/
def cos_gt (t : ℚ) (a b : List ℚ) : Bool :=
  decide (sumSq a ≠ 0) && decide (sumSq b ≠ 0) &&
  decide (0 < dot a b) && decide (t ^ 2 * (sumSq a * sumSq b) < (dot a b) ^ 2)

end VectorStore

/-- `MemoryRepository.get_by_user` (no type filter): `WHERE user_id = ?
ORDER BY last_accessed DESC LIMIT ?` (stable sort for the SQL-unspecified
tie order). -/
def get_memories_by_user (mems : List MemoryEntry) (user : String) (limit : ℕ) : List MemoryEntry :=
  (Integrator.stableSort (fun a b => decide (b.last_accessed ≤ a.last_accessed))
    (mems.filter (fun m => m.user_id = user))).take limit

namespace Memory

/-- The `sim > 0.8` test of `consolidate`, guarded by both embeddings being
present (`mem.embedding is not None and other.embedding is not None`). -/
def similar_mem (a b : MemoryEntry) : Bool :=
  match a.embedding, b.embedding with
  | Option.some ea, Option.some eb => VectorStore.cos_gt 0.8 ea eb
  | _, _ => false

/-- Inner loop of `consolidate`'s grouping: scan the entries after the seed,
skipping already-processed ids, collecting those similar to the seed and
marking them processed. -/
def gather (mem : MemoryEntry) : List MemoryEntry → List String → List MemoryEntry × List String
  | [], processed => ([], processed)
  | other :: rest, processed =>
      if other.id ∈ processed then gather mem rest processed
      else if similar_mem mem other then
        let r := gather mem rest (processed ++ [other.id])
        (other :: r.1, r.2)
      else gather mem rest processed

/-- Outer loop of `consolidate`'s grouping: each unprocessed entry seeds a
group of the later entries similar to it; only groups with more than one
member are kept. -/
def build_groups : List MemoryEntry → List String → List (List MemoryEntry)
  | [], _ => []
  | mem :: rest, processed =>
      if mem.id ∈ processed then build_groups rest processed
      else
        let r := gather mem rest (processed ++ [mem.id])
        let group := mem :: r.1
        if group.length > 1 then group :: build_groups rest r.2
        else build_groups rest r.2

/-- Lexicographic `≤` on `(importance, access_count)`, the merge sort key. -/
def impKeyLe (a b : ℚ × ℕ) : Bool :=
  decide (a.1 < b.1 ∨ (a.1 = b.1 ∧ a.2 ≤ b.2))

/-- The merge step of `consolidate`: sort the group by `(importance,
access_count)` descending, keep the head as primary, boost its importance by
`0.1 × group size` capped at 1.0, delete the rest, save the primary. -/
def merge_group (mems : List MemoryEntry) (group : List MemoryEntry) : List MemoryEntry :=
  let sorted := Integrator.stableSort
    (fun a b => impKeyLe (b.importance, b.access_count) (a.importance, a.access_count)) group
  match sorted with
  | [] => mems
  | primary :: rest =>
      let primary' := { primary with
        importance := min 1 (primary.importance + 0.1 * (group.length : ℚ)) }
      let afterDelete := rest.foldl (fun s m => s.filter (fun x => x.id ≠ m.id)) mems
      upsertBy (fun x => x.id) primary' afterDelete

/-- `HierarchicalMemory.consolidate` of `src/memory/hierarchical.py`. -/
def consolidate (st : Stores) (user : String) : Stores :=
  let memories := get_memories_by_user st.memories user 10000
  let groups := build_groups memories []
  { st with memories := groups.foldl merge_group st.memories }

/-- `HierarchicalMemory.forget` of `src/memory/hierarchical.py`: delete the
user's entries with `importance < decay_threshold` AND more than 30 days
since last access AND `access_count < 3` (the conjunction of all three). -/
def forget (st : Stores) (user : String) (now : ℤ) (decay_threshold : ℚ) : Stores :=
  let memories := get_memories_by_user st.memories user 10000
  { st with memories := memories.foldl (fun s memory =>
      let days_since_access := Int.fdiv (now - memory.last_accessed) 86400
      if memory.importance < decay_threshold ∧ days_since_access > 30 ∧ memory.access_count < 3
      then s.filter (fun x => x.id ≠ memory.id) else s) st.memories }

/-- `HierarchicalMemory.store` of `src/memory/hierarchical.py`: build the
entry (importance stored exactly as passed) and save it.  The eager
embedding `create_embedding` mixes `math.log` idf weights with L2
normalization, both transcendental over the floats, so the embedding
function is passed in as a parameter; no claim depends on the vector
values. -/
def store (embed : String → Option (List ℚ)) (uuid : ℕ → String) (now : ℤ)
    (st : Stores) (user : String) (content : String) (memory_type : MemoryType)
    (importance : ℚ) (context_tags : PyVal) (metadata : PyVal) (k : ℕ) : Stores × ℕ :=
  let memory : MemoryEntry :=
    { id := uuid k, user_id := user, memory_type := memory_type,
      content := content, embedding := embed content, importance := importance,
      access_count := 0, last_accessed := now,
      context_tags := context_tags, metadata := metadata }
  (st.saveMemory memory, k + 1)

/-- `HierarchicalMemory.update_importance`: fetch by id and save back with
the new importance clamped by `max(0.0, min(1.0, new_importance))`. -/
def update_importance (st : Stores) (memory_id : String) (new_importance : ℚ) : Stores :=
  match st.memories.find? (fun m => m.id = memory_id) with
  | Option.some memory =>
      st.saveMemory { memory with importance := max 0 (min 1 new_importance) }
  | Option.none => st

end Memory

namespace Integrator

theorem perm_pyInsert {le : α → α → Bool} (a : α) (l : List α) :
    (pyInsert le a l).Perm (a :: l) := by
  induction l with
  | nil => simp [pyInsert]
  | cons b l ih =>
      simp only [pyInsert]
      split
      · exact List.Perm.refl _
      · exact (List.Perm.cons b ih).trans (List.Perm.swap a b l)

theorem perm_stableSort {le : α → α → Bool} (l : List α) :
    (stableSort le l).Perm l := by
  induction l with
  | nil => exact List.Perm.refl _
  | cons a l ih => exact (perm_pyInsert a (stableSort le l)).trans (List.Perm.cons a ih)

end Integrator

theorem mem_upsertBy {key : α → String} {a m : α} {l : List α} :
    m ∈ upsertBy key a l → m ∈ l ∨ m = a := by
  unfold upsertBy
  split
  · intro h
    rcases List.mem_map.mp h with ⟨x, hx, hxm⟩
    by_cases hk : key x = key a
    · rw [if_pos hk] at hxm
      exact Or.inr hxm.symm
    · rw [if_neg hk] at hxm
      exact Or.inl (hxm ▸ hx)
  · intro h
    rcases List.mem_append.mp h with h | h
    · exact Or.inl h
    · exact Or.inr (List.mem_singleton.mp h)

theorem self_mem_upsertBy {key : α → String} (a : α) (l : List α) :
    a ∈ upsertBy key a l := by
  unfold upsertBy
  split
  · rename_i hany
    rcases List.any_eq_true.mp hany with ⟨x, hx, hk⟩
    exact List.mem_map.mpr ⟨x, hx, by simp [of_decide_eq_true hk]⟩
  · simp

theorem length_upsertBy {key : α → String} (a : α) (l : List α)
    (h : l.any (fun x => key x = key a) = true) :
    (upsertBy key a l).length = l.length := by
  unfold upsertBy
  simp [h]

namespace Memory

theorem gather_of_no_similar (mem : MemoryEntry) (rest : List MemoryEntry)
    (processed : List String)
    (h : ∀ o ∈ rest, similar_mem mem o = false) :
    gather mem rest processed = ([], processed) := by
  induction rest generalizing processed with
  | nil => rfl
  | cons o rest ih =>
      simp only [gather]
      split
      · exact ih processed (fun x hx => h x (List.mem_cons_of_mem o hx))
      · rw [h o (List.mem_cons_self o rest)]
        simp only [Bool.false_eq_true, if_false]
        exact ih processed (fun x hx => h x (List.mem_cons_of_mem o hx))

theorem build_groups_of_pairwise (l : List MemoryEntry)
    (h : l.Pairwise (fun a b => similar_mem a b = false)) :
    ∀ processed, build_groups l processed = [] := by
  induction l with
  | nil => intro processed; rfl
  | cons mem rest ih =>
      intro processed
      rcases List.pairwise_cons.mp h with ⟨hhead, htail⟩
      simp only [build_groups]
      split
      · exact ih htail processed
      · rw [gather_of_no_similar mem rest (processed ++ [mem.id]) hhead]
        simp only [List.length_cons, List.length_nil]
        norm_num
        exact ih htail (processed ++ [mem.id])

theorem consolidate_of_pairwise (st : Stores) (user : String)
    (h : (get_memories_by_user st.memories user 10000).Pairwise
           (fun a b => similar_mem a b = false)) :
    consolidate st user = st := by
  unfold consolidate
  simp only []
  rw [build_groups_of_pairwise _ h []]
  rfl

end Memory

/-- Consolidation fixture A: embedding `(1, 0)`; cosine to B is `24/25 =
0.96 > 0.8`, cosine to C is `10296/15625 ≈ 0.66 ≤ 0.8`. -/
def memA : MemoryEntry :=
  { id := "A", user_id := "u", memory_type := .semantic, content := "a",
    embedding := some [1, 0], importance := 0.5, access_count := 0,
    last_accessed := 3, context_tags := .arr [], metadata := .dict [] }

/-- Consolidation fixture B: embedding `(24, 7)` (norm 25); cosine to C is
`329375/390625 ≈ 0.843 > 0.8`.  Highest importance, so B wins its group. -/
def memB : MemoryEntry :=
  { id := "B", user_id := "u", memory_type := .semantic, content := "b",
    embedding := some [24, 7], importance := 0.6, access_count := 0,
    last_accessed := 2, context_tags := .arr [], metadata := .dict [] }

/-- Consolidation fixture C: embedding `(10296, 11753)` (norm 15625). -/
def memC : MemoryEntry :=
  { id := "C", user_id := "u", memory_type := .semantic, content := "c",
    embedding := some [10296, 11753], importance := 0.5, access_count := 0,
    last_accessed := 1, context_tags := .arr [], metadata := .dict [] }

/-- Store for the consolidation counterexample. -/
def c4St : Stores := { memories := [memA, memB, memC], prefs := [], rules := [] }

/-- C4 counterexample: the first `consolidate` groups A with B (the group is
seeded star-wise around A; C is not similar to A), keeps B as primary and
deletes A — but the survivors B and C are themselves `> 0.8`-similar, so a
second run merges again: the entry sets after one and after two runs
differ. -/
theorem C4_counterexample :
    (Memory.consolidate c4St "u").memories.map (fun m => m.id) = ["B", "C"] ∧
    (Memory.consolidate c4St "u").memories.map (fun m => m.importance) = [0.8, 0.5] ∧
    (Memory.consolidate (Memory.consolidate c4St "u") "u").memories.map (fun m => m.id) = ["B"] ∧
    (Memory.consolidate (Memory.consolidate c4St "u") "u").memories.map (fun m => m.importance) = [1] :=
  ⟨by with_unfolding_all rfl, by with_unfolding_all rfl,
   by with_unfolding_all rfl, by with_unfolding_all rfl⟩

/-- C4 (amended): `consolidate` is idempotent only conditionally — when the
entries surviving the first run are pairwise non-similar (no two have cosine
similarity above 0.8), a second run performs no merges or deletions and
leaves the store exactly as the first run left it.  In general the primaries
of two distinct clusters can themselves be `> 0.8`-similar, and a second run
merges further (see the counterexample). -/
theorem C4_consolidate_conditional_idempotence (st : Stores) (user : String)
    (h : (get_memories_by_user (Memory.consolidate st user).memories user 10000).Pairwise
           (fun a b => Memory.similar_mem a b = false)) :
    Memory.consolidate (Memory.consolidate st user) user = Memory.consolidate st user :=
  Memory.consolidate_of_pairwise (Memory.consolidate st user) user h

/-- Fixture entry with no embedding (never similar to anything). -/
def memNoEmb1 : MemoryEntry :=
  { id := "n1", user_id := "u", memory_type := .episodic, content := "x",
    embedding := Option.none, importance := 0.4, access_count := 1,
    last_accessed := 5, context_tags := .arr [], metadata := .dict [] }

/-- Second embedding-free fixture entry. -/
def memNoEmb2 : MemoryEntry :=
  { id := "n2", user_id := "u", memory_type := .episodic, content := "y",
    embedding := Option.none, importance := 0.9, access_count := 2,
    last_accessed := 4, context_tags := .arr [], metadata := .dict [] }

/-- Store for the C4 witness. -/
def c4WSt : Stores := { memories := [memNoEmb1, memNoEmb2], prefs := [], rules := [] }

/-- Witness for C4: on a store whose post-consolidation entries are pairwise
non-similar, the second run changes nothing. -/
theorem C4_consolidate_conditional_idempotence_witness :
    Memory.consolidate (Memory.consolidate c4WSt "u") "u" = Memory.consolidate c4WSt "u" :=
  C4_consolidate_conditional_idempotence c4WSt "u" (by
    have hmem : get_memories_by_user (Memory.consolidate c4WSt "u").memories "u" 10000
        = [memNoEmb1, memNoEmb2] := by with_unfolding_all rfl
    rw [hmem]
    refine List.pairwise_cons.mpr ⟨?_, List.pairwise_singleton _ _⟩
    intro b hb
    rcases List.mem_singleton.mp hb with rfl
    with_unfolding_all rfl)

namespace Memory

theorem mem_foldl_delete (cond : MemoryEntry → Prop) [DecidablePred cond]
    (snap : List MemoryEntry) (m : MemoryEntry) :
    ∀ st0 : List MemoryEntry,
      (m ∈ snap.foldl (fun s d => if cond d then s.filter (fun x => x.id ≠ d.id) else s) st0 ↔
       m ∈ st0 ∧ ∀ d ∈ snap, cond d → d.id ≠ m.id) := by
  induction snap with
  | nil => intro st0; simp
  | cons d snap ih =>
      intro st0
      simp only [List.foldl_cons]
      by_cases hc : cond d
      · rw [if_pos hc, ih]
        simp only [List.mem_filter, List.mem_cons, decide_not, Bool.not_eq_eq_eq_not,
          Bool.not_true, decide_eq_false_iff_not]
        constructor
        · rintro ⟨⟨hm, hid⟩, hrest⟩
          refine ⟨hm, ?_⟩
          intro e he hce
          rcases he with rfl | he
          · exact fun heq => hid heq.symm
          · exact hrest e he hce
        · rintro ⟨hm, hall⟩
          refine ⟨⟨hm, ?_⟩, ?_⟩
          · exact fun heq => hall d (Or.inl rfl) hc heq.symm
          · intro e he hce
            exact hall e (Or.inr he) hce
      · rw [if_neg hc, ih]
        simp only [List.mem_cons]
        constructor
        · rintro ⟨hm, hall⟩
          refine ⟨hm, ?_⟩
          intro e he hce
          rcases he with rfl | he
          · exact absurd hce hc
          · exact hall e he hce
        · rintro ⟨hm, hall⟩
          refine ⟨hm, ?_⟩
          intro e he hce
          exact hall e (Or.inr he) hce

end Memory

theorem mem_get_memories_by_user (mems : List MemoryEntry) (user : String) (limit : ℕ)
    (h : (mems.filter (fun m => m.user_id = user)).length ≤ limit) (x : MemoryEntry) :
    x ∈ get_memories_by_user mems user limit ↔ x ∈ mems ∧ x.user_id = user := by
  unfold get_memories_by_user
  rw [List.take_of_length_le (by rw [Integrator.length_stableSort]; exact h)]
  rw [Integrator.mem_stableSort]
  simp [List.mem_filter]

/-- C5 (confirmed): under unique ids and at most 10000 entries for the user
(the repository query's LIMIT), `forget(user, 0.1)` deletes an entry of the
store iff it belongs to the user and satisfies all three conditions
simultaneously — importance below the threshold, more than 30 days since
last access, access count below 3; every entry failing any condition
survives unchanged (deletion is the only mutation `forget` performs). -/
theorem C5_forget_conjunctive (st : Stores) (user : String) (now : ℤ) (m : MemoryEntry)
    (hnd : (st.memories.map (fun x => x.id)).Nodup)
    (hlim : (st.memories.filter (fun x => x.user_id = user)).length ≤ 10000)
    (hm : m ∈ st.memories) :
    m ∈ (Memory.forget st user now 0.1).memories ↔
      ¬(m.user_id = user ∧ m.importance < 0.1 ∧
        Int.fdiv (now - m.last_accessed) 86400 > 30 ∧ m.access_count < 3) := by
  unfold Memory.forget
  simp only []
  rw [Memory.mem_foldl_delete
    (fun d => d.importance < 0.1 ∧ Int.fdiv (now - d.last_accessed) 86400 > 30 ∧ d.access_count < 3)]
  constructor
  · rintro ⟨-, hall⟩ ⟨huser, hcond⟩
    exact hall m ((mem_get_memories_by_user st.memories user 10000 hlim m).mpr ⟨hm, huser⟩)
      hcond rfl
  · intro hnot
    refine ⟨hm, ?_⟩
    intro d hd hcond heq
    rcases (mem_get_memories_by_user st.memories user 10000 hlim d).mp hd with ⟨hdmem, hduser⟩
    have hdm : d = m := List.inj_on_of_nodup_map hnd hdmem hm heq
    exact hnot ⟨hdm ▸ hduser, hdm ▸ hcond⟩

/-- Forget fixture: low importance, 40 days stale, never accessed — all
three deletion conditions hold. -/
def oldWeakMem : MemoryEntry :=
  { id := "w", user_id := "u", memory_type := .episodic, content := "stale",
    embedding := Option.none, importance := 0.05, access_count := 0,
    last_accessed := 0, context_tags := .arr [], metadata := .dict [] }

/-- Forget fixture: high importance — fails the first condition, so it must
survive even though it is just as stale. -/
def freshStrongMem : MemoryEntry :=
  { id := "s", user_id := "u", memory_type := .episodic, content := "kept",
    embedding := Option.none, importance := 0.9, access_count := 0,
    last_accessed := 0, context_tags := .arr [], metadata := .dict [] }

/-- Store for the C5 witness. -/
def c5St : Stores := { memories := [oldWeakMem, freshStrongMem], prefs := [], rules := [] }

/-- Witness for C5 at 40 days: the all-three-conditions entry is gone, the
high-importance one survives. -/
theorem C5_forget_conjunctive_witness :
    oldWeakMem ∉ (Memory.forget c5St "u" (86400 * 40) 0.1).memories ∧
    freshStrongMem ∈ (Memory.forget c5St "u" (86400 * 40) 0.1).memories := by
  constructor
  · intro hmem
    exact (C5_forget_conjunctive c5St "u" (86400 * 40) oldWeakMem (by decide)
      (by decide) (List.mem_cons_self _ _)).mp hmem
      ⟨rfl, by norm_num [oldWeakMem], by decide, by decide⟩
  · exact (C5_forget_conjunctive c5St "u" (86400 * 40) freshStrongMem (by decide)
      (by decide) (List.mem_cons_of_mem _ (List.mem_cons_self _ _))).mpr
      (by rintro ⟨-, h2, -⟩; norm_num [freshStrongMem] at h2)

/-- C6 counterexample: `store()` does not clamp — an importance of 1.5
passed to `store` is persisted as 1.5, outside `[0, 1]`, violating the
claimed invariant at the very first operation. -/
theorem C6_counterexample :
    ((Memory.store (fun _ => Option.none) idgen 0 stEmpty "u" "note" .semantic
        (3/2) (.arr []) (.dict []) 0).1.memories.map (fun m => m.importance)) = [3/2] ∧
    ¬((3/2 : ℚ) ≤ 1) :=
  ⟨by with_unfolding_all rfl, by norm_num⟩

/-- C6 (amended): `update_importance` does clamp — every entry of its output
either was already in the store or carries an importance in `[0, 1]`; but
`store()` persists the importance argument exactly as passed, with no
clamping, so out-of-range importances enter the store through `store` (and
the claimed system-wide `[0, 1]` invariant fails). -/
theorem C6_importance_clamping :
    (∀ (st : Stores) (memory_id : String) (v : ℚ) (m : MemoryEntry),
        m ∈ (Memory.update_importance st memory_id v).memories →
        m ∈ st.memories ∨ (0 ≤ m.importance ∧ m.importance ≤ 1)) ∧
    (∀ (embed : String → Option (List ℚ)) (uuid : ℕ → String) (now : ℤ)
        (st : Stores) (user content : String) (mt : MemoryType) (imp : ℚ)
        (tags md : PyVal) (k : ℕ),
        ∃ m ∈ (Memory.store embed uuid now st user content mt imp tags md k).1.memories,
          m.id = uuid k ∧ m.importance = imp) := by
  constructor
  · intro st memory_id v m hm
    unfold Memory.update_importance at hm
    split at hm
    · rename_i memory hfind
      rcases mem_upsertBy hm with h | h
      · exact Or.inl h
      · refine Or.inr ?_
        subst h
        constructor
        · exact le_max_left 0 _
        · exact max_le (by norm_num) (min_le_left 1 v)
    · exact Or.inl hm
  · intro embed uuid now st user content mt imp tags md k
    refine ⟨_, self_mem_upsertBy _ st.memories, rfl, rfl⟩

/-- Out-of-range fixture entry (importance 5) for the C6 witness. -/
def c6Mem : MemoryEntry :=
  { id := "m1", user_id := "u", memory_type := .semantic, content := "note",
    embedding := Option.none, importance := 5, access_count := 0,
    last_accessed := 0, context_tags := .arr [], metadata := .dict [] }

/-- Store holding only `c6Mem`. -/
def c6St : Stores := { memories := [c6Mem], prefs := [], rules := [] }

/-- Witness for C6: updating the importance of `c6Mem` to 5 produces an
entry that is new (not the old record) and clamped into `[0, 1]`. -/
theorem C6_importance_clamping_witness :
    ({ c6Mem with importance := max 0 (min 1 (5 : ℚ)) } ∈ c6St.memories ∨
      (0 ≤ ({ c6Mem with importance := max 0 (min 1 (5 : ℚ)) } : MemoryEntry).importance ∧
       ({ c6Mem with importance := max 0 (min 1 (5 : ℚ)) } : MemoryEntry).importance ≤ 1)) ∧
    (∃ m ∈ (Memory.store (fun _ => Option.none) idgen 0 stEmpty "u" "note" .semantic
        (3/2) (.arr []) (.dict []) 0).1.memories, m.id = idgen 0 ∧ m.importance = 3/2) := by
  constructor
  · refine C6_importance_clamping.1 c6St "m1" 5 _ ?_
    have h : (Memory.update_importance c6St "m1" 5).memories
        = [{ c6Mem with importance := max 0 (min 1 (5 : ℚ)) }] := by
      with_unfolding_all rfl
    rw [h]
    exact List.mem_singleton.mpr rfl
  · exact C6_importance_clamping.2 (fun _ => Option.none) idgen 0 stEmpty "u" "note"
      .semantic (3/2) (.arr []) (.dict []) 0

namespace PrefGraph

/-- `PreferenceGraph.find_similar_preference` of
`src/memory/preference_graph.py`: the first preference of the same user and
category whose word set covers at least 60% of the new text's words
(`overlap >= len(pref_words) * 0.6`, directional on the new text). -/
def find_similar_preference (prefs : List PreferenceNode)
    (user category preference : String) : Option PreferenceNode :=
  let ps := get_prefs_by_user prefs user (.str category)
  let pref_words := wordSet preference
  ps.find? (fun p =>
    let existing_words := wordSet p.preference
    decide ((pref_words.length : ℚ) * 0.6 ≤ ((pref_words.inter existing_words).length : ℚ)))

/-- The merged node `add_preference` writes back when a similar preference
exists: `strength = min(1, strength + 0.2×new)`, `confidence = min(1,
average)`, examples extended, `updated_at` refreshed. -/
def merge_preference (existing : PreferenceNode) (strength confidence : ℚ)
    (examples : List PyVal) (now : ℤ) : PreferenceNode :=
  { existing with
    strength := min 1 (existing.strength + strength * 0.2),
    confidence := min 1 ((existing.confidence + confidence) / 2),
    examples := existing.examples ++ examples,
    updated_at := now }

/-- `PreferenceGraph.add_preference` of `src/memory/preference_graph.py`. -/
def add_preference (uuid : ℕ → String) (now : ℤ) (prefs : List PreferenceNode)
    (user category preference : String) (strength confidence : ℚ)
    (source : String) (examples : List PyVal) (k : ℕ) : List PreferenceNode × ℕ :=
  match find_similar_preference prefs user category preference with
  | Option.some existing =>
      (upsertBy (fun p => p.id) (merge_preference existing strength confidence examples now) prefs, k)
  | Option.none =>
      let pref : PreferenceNode :=
        { id := uuid k, user_id := user, category := category,
          preference := preference, strength := strength, confidence := confidence,
          examples := examples, exceptions := [], source := source,
          created_at := now, updated_at := now }
      (upsertBy (fun p => p.id) pref prefs, k + 1)

/-- `PreferenceGraph.weaken_preference`: looks the node up in
`get_by_user("")` — i.e. only among preferences whose `user_id` is the empty
string — and multiplies its strength by the factor if found. -/
def weaken_preference (prefs : List PreferenceNode) (pref_id : String)
    (factor : ℚ) (now : ℤ) : List PreferenceNode :=
  let ps := get_prefs_by_user prefs "" PyVal.none
  match ps.find? (fun p => p.id = pref_id) with
  | Option.some pref =>
      prefs.map (fun p => if p.id = pref_id
        then { p with strength := pref.strength * factor, updated_at := now } else p)
  | Option.none => prefs

/-- `PreferenceGraph.add_exception`: same empty-user lookup; appends an
exception record and saves if found (`added_at` rendered from the
timestamp). -/
def add_exception (prefs : List PreferenceNode) (pref_id : String)
    (exception_context : PyVal) (correct_behavior : String) (now : ℤ) : List PreferenceNode :=
  let ps := get_prefs_by_user prefs "" PyVal.none
  match ps.find? (fun p => p.id = pref_id) with
  | Option.some pref =>
      let pref' := { pref with exceptions := pref.exceptions ++
        [PyVal.dict [("context", exception_context),
                     ("correct_behavior", .str correct_behavior),
                     ("added_at", .str (toString now))]] }
      upsertBy (fun p => p.id) pref' prefs
  | Option.none => prefs

end PrefGraph

theorem mem_of_mem_get_prefs {prefs : List PreferenceNode} {user : String}
    {cat : PyVal} {x : PreferenceNode} (h : x ∈ get_prefs_by_user prefs user cat) :
    x ∈ prefs := by
  unfold get_prefs_by_user at h
  rw [Integrator.mem_stableSort] at h
  split at h
  · exact (List.mem_filter.mp (List.mem_filter.mp h).1).1
  · exact (List.mem_filter.mp h).1

/-- C7 (confirmed, with the natural provisos): if some existing preference
of the same user and category overlaps the new text by at least 60% (in the
code's direction, relative to the new text's word set), then
`find_similar_preference` finds a node and `add_preference` merges into it
instead of creating a second node: the store keeps its size, the merged node
has `strength = min(1, old + 0.2×new)` — which never decreases the strength
when the old strength was in range and the new one non-negative — and its
confidence is `min(1, average)`, which is exactly the average whenever both
confidences are at most 1. -/
theorem C7_add_preference_merges (uuid : ℕ → String) (now : ℤ)
    (prefs : List PreferenceNode) (user category text : String)
    (strength confidence : ℚ) (source : String) (examples : List PyVal) (k : ℕ)
    (h0 : 0 ≤ strength) :
    ((∃ p ∈ get_prefs_by_user prefs user (.str category),
        ((wordSet text).length : ℚ) * 0.6 ≤ (((wordSet text).inter (wordSet p.preference)).length : ℚ)) →
      (PrefGraph.find_similar_preference prefs user category text).isSome) ∧
    (∀ q, PrefGraph.find_similar_preference prefs user category text = some q →
      (PrefGraph.add_preference uuid now prefs user category text strength confidence source examples k).1.length
          = prefs.length ∧
      PrefGraph.merge_preference q strength confidence examples now
          ∈ (PrefGraph.add_preference uuid now prefs user category text strength confidence source examples k).1 ∧
      (PrefGraph.merge_preference q strength confidence examples now).strength
          = min 1 (q.strength + strength * 0.2) ∧
      (q.strength ≤ 1 →
        q.strength ≤ (PrefGraph.merge_preference q strength confidence examples now).strength) ∧
      (q.confidence ≤ 1 → confidence ≤ 1 →
        (PrefGraph.merge_preference q strength confidence examples now).confidence
          = (q.confidence + confidence) / 2)) := by
  constructor
  · rintro ⟨p, hp, hov⟩
    apply List.find?_isSome.mpr
    exact ⟨p, hp, decide_eq_true hov⟩
  · intro q hq
    have hqmem : q ∈ prefs := by
      have := List.mem_of_find?_eq_some hq
      exact mem_of_mem_get_prefs this
    have hfound : (PrefGraph.add_preference uuid now prefs user category text
        strength confidence source examples k).1
        = upsertBy (fun p => p.id) (PrefGraph.merge_preference q strength confidence examples now) prefs := by
      unfold PrefGraph.add_preference
      rw [hq]
    have hany : prefs.any (fun x => x.id =
        (PrefGraph.merge_preference q strength confidence examples now).id) = true := by
      apply List.any_eq_true.mpr
      exact ⟨q, hqmem, by simp [PrefGraph.merge_preference]⟩
    refine ⟨?_, ?_, rfl, ?_, ?_⟩
    · rw [hfound]
      exact length_upsertBy _ _ hany
    · rw [hfound]
      exact self_mem_upsertBy _ _
    · intro hle
      refine le_min hle ?_
      nlinarith
    · intro hc1 hc2
      simp only [PrefGraph.merge_preference]
      refine min_eq_right ?_
      linarith

/-- Existing preference fixture for the C7 witness. -/
def c7Pref : PreferenceNode :=
  { id := "c7-p", user_id := "u", category := "communication",
    preference := "likes short answers", strength := 0.5, confidence := 0.8,
    examples := [], exceptions := [], source := "explicit",
    created_at := 0, updated_at := 0 }

/-- One-node store for the C7 witness. -/
def c7Prefs : List PreferenceNode := [c7Pref]

/-- Witness for C7: adding "short answers" (word overlap 2 of 2 ≥ 60%) to a
store holding "likes short answers" merges rather than creating a node, and
the merged strength does not decrease. -/
theorem C7_add_preference_merges_witness :
    (PrefGraph.find_similar_preference c7Prefs "u" "communication" "short answers").isSome ∧
    (PrefGraph.add_preference idgen 0 c7Prefs "u" "communication" "short answers"
        0.9 0.8 "explicit" [] 0).1.length = c7Prefs.length ∧
    c7Pref.strength ≤ (PrefGraph.merge_preference c7Pref 0.9 0.8 [] 0).strength := by
  have hthm := C7_add_preference_merges idgen 0 c7Prefs "u" "communication" "short answers"
    0.9 0.8 "explicit" [] 0 (by norm_num)
  have hsome := hthm.1 (by
    have h : get_prefs_by_user c7Prefs "u" (.str "communication") = [c7Pref] := by
      with_unfolding_all rfl
    rw [h]
    exact ⟨c7Pref, List.mem_singleton.mpr rfl, of_decide_eq_true (by with_unfolding_all rfl)⟩)
  have hfind : PrefGraph.find_similar_preference c7Prefs "u" "communication" "short answers"
      = some c7Pref := by with_unfolding_all rfl
  have hres := hthm.2 c7Pref hfind
  exact ⟨hsome, hres.1, hres.2.2.2.1 (by norm_num [c7Pref])⟩

theorem empty_user_find_none (prefs : List PreferenceNode) (p : PreferenceNode)
    (hp : p ∈ prefs) (hu : p.user_id ≠ "")
    (hnd : (prefs.map (fun x => x.id)).Nodup) :
    (get_prefs_by_user prefs "" PyVal.none).find? (fun x => x.id = p.id) = Option.none := by
  apply List.find?_eq_none.mpr
  intro q hq
  have hqm : q ∈ prefs := mem_of_mem_get_prefs hq
  have hqu : q.user_id = "" := by
    unfold get_prefs_by_user at hq
    rw [Integrator.mem_stableSort] at hq
    simp only [pyTruthy, Bool.false_eq_true, if_false] at hq
    have := (List.mem_filter.mp hq).2
    exact of_decide_eq_true this
  intro hid
  have hqp : q = p := List.inj_on_of_nodup_map hnd hqm hp (of_decide_eq_true hid)
  exact hu (hqp ▸ hqu)

/-- C10 (confirmed): for a preference node whose `user_id` is non-empty,
both `weaken_preference` and `add_exception` look the node up only among the
empty-string user's preferences (`get_by_user("")`), never find it, and
leave the store completely unchanged. -/
theorem C10_mutations_only_reach_empty_user (prefs : List PreferenceNode)
    (p : PreferenceNode) (factor : ℚ) (now : ℤ) (ctx : PyVal) (cb : String)
    (hp : p ∈ prefs) (hu : p.user_id ≠ "")
    (hnd : (prefs.map (fun x => x.id)).Nodup) :
    PrefGraph.weaken_preference prefs p.id factor now = prefs ∧
    PrefGraph.add_exception prefs p.id ctx cb now = prefs := by
  have hnone := empty_user_find_none prefs p hp hu hnd
  constructor
  · unfold PrefGraph.weaken_preference
    simp only []
    rw [hnone]
  · unfold PrefGraph.add_exception
    simp only []
    rw [hnone]

/-- Real-user preference fixture for the C10 witness. -/
def c10Pref : PreferenceNode :=
  { id := "c10-p", user_id := "alice", category := "scheduling",
    preference := "never before 9am", strength := 0.9, confidence := 0.95,
    examples := [], exceptions := [], source := "explicit",
    created_at := 0, updated_at := 0 }

/-- Witness for C10: weakening or adding an exception to a real user's
preference by id leaves the one-node store untouched. -/
theorem C10_mutations_only_reach_empty_user_witness :
    PrefGraph.weaken_preference [c10Pref] "c10-p" 0.7 5 = [c10Pref] ∧
    PrefGraph.add_exception [c10Pref] "c10-p" (.dict []) "ok at 8am" 5 = [c10Pref] :=
  C10_mutations_only_reach_empty_user [c10Pref] c10Pref 0.7 5 (.dict []) "ok at 8am"
    (List.mem_singleton.mpr rfl) (by decide) (by decide)

/-- `KnowledgeProtection` dataclass of `src/models/learning.py`. -/
structure KnowledgeProtection where
  knowledge_id : String
  importance : ℚ
  last_rehearsed : ℤ
  rehearsal_count : ℕ
  protection_level : String

/-- One entry of `ForgettingPreventionSystem.rehearsal_schedule`. -/
structure RehearsalItem where
  memory_id : String
  user_id : String
  next_rehearsal : ℤ
  importance : ℚ

/-- Process-local state of `ForgettingPreventionSystem`. -/
structure FPState where
  protected_knowledge : List (String × KnowledgeProtection)
  rehearsal_schedule : List RehearsalItem

namespace Forgetting

/-- `_find_affected_knowledge` of `src/learning/forgetting_prevention.py`:
the user's memories (up to the query LIMIT 1000) whose word sets overlap
`str(update_data)`'s word set by more than 3 shared tokens, or by any
overlap exceeding 30% of the memory's own tokens. -/
def find_affected_knowledge (mems : List MemoryEntry) (user : String)
    (u : LearningUpdate) : List MemoryEntry :=
  let memories := get_memories_by_user mems user 1000
  let new_content := PyVal.pyStr (.dict u.update_data)
  let new_terms := wordSet new_content
  memories.filter (fun memory =>
    let memory_terms := wordSet memory.content
    let overlap := new_terms.inter memory_terms
    decide (overlap.length > 3 ∨
      (overlap.length > 0 ∧ (0.3 : ℚ) < (overlap.length : ℚ) / (memory_terms.length : ℚ))))

/-- `_calculate_importance` per memory: base importance plus access bonuses
(+0.1 over 10 accesses, +0.05 over 5) and recency bonuses (+0.1 within 7
days, +0.05 within 30), clamped at 1.0 after each addition.  (The source
builds a dict keyed by memory id; for distinct ids the per-memory score is
the same thing.) -/
def calculate_importance (now : ℤ) (memory : MemoryEntry) : ℚ :=
  let score := memory.importance
  let score := if memory.access_count > 10 then min 1 (score + 0.1)
    else if memory.access_count > 5 then min 1 (score + 0.05)
    else score
  let days_old := Int.fdiv (now - memory.last_accessed) 86400
  if days_old < 7 then min 1 (score + 0.1)
  else if days_old < 30 then min 1 (score + 0.05)
  else score

/-- Assignment into the `protected_knowledge` dict. -/
def protSet (d : List (String × KnowledgeProtection)) (k : String)
    (v : KnowledgeProtection) : List (String × KnowledgeProtection) :=
  if d.any (fun kv => kv.1 = k) then d.map (fun kv => if kv.1 = k then (k, v) else kv)
  else d ++ [(k, v)]

/-- `_schedule_rehearsal`: append a rehearsal at `now + interval`, 1 day
above importance 0.9, 3 days above 0.7, else 7 days. -/
def schedule_rehearsal (fp : FPState) (now : ℤ) (memory : MemoryEntry)
    (importance : ℚ) : FPState :=
  let interval_days : ℤ := if importance > 0.9 then 1 else if importance > 0.7 then 3 else 7
  { fp with rehearsal_schedule := fp.rehearsal_schedule ++
      [{ memory_id := memory.id, user_id := memory.user_id,
         next_rehearsal := now + interval_days * 86400, importance := importance }] }

/-- `_protect_memory`: record the protection (level `"elevated"` above 0.9,
else `"normal"`) and schedule a rehearsal. -/
def protect_memory (fp : FPState) (now : ℤ) (memory : MemoryEntry)
    (importance : ℚ) : FPState :=
  let protection : KnowledgeProtection :=
    { knowledge_id := memory.id, importance := importance, last_rehearsed := now,
      rehearsal_count := 0,
      protection_level := if importance > 0.9 then "elevated" else "normal" }
  schedule_rehearsal
    { fp with protected_knowledge := protSet fp.protected_knowledge memory.id protection }
    now memory importance

/-- The protection loop of `protect_before_update`: memories scoring above
0.7 are protected and folded into `max_importance`. -/
def protect_loop (now : ℤ) : List MemoryEntry → ℚ → FPState → ℚ × FPState
  | [], maxImp, fp => (maxImp, fp)
  | memory :: rest, maxImp, fp =>
      let score := calculate_importance now memory
      if score > 0.7 then
        protect_loop now rest (max maxImp score) (protect_memory fp now memory score)
      else protect_loop now rest maxImp fp

/-- `_calculate_adaptive_rate`: 0.3 scaled by 0.1 / 0.5 / 0.8 / 1 as the
maximal affected importance passes 0.9 / 0.7 / 0.5. -/
def calculate_adaptive_rate (max_importance : ℚ) : ℚ :=
  let base_rate : ℚ := 0.3
  if max_importance > 0.9 then base_rate * 0.1
  else if max_importance > 0.7 then base_rate * 0.5
  else if max_importance > 0.5 then base_rate * 0.8
  else base_rate

/-- `ForgettingPreventionSystem.protect_before_update` of
`src/learning/forgetting_prevention.py`: the adaptive rate plus the updated
protection state. -/
def protect_before_update (fp : FPState) (now : ℤ) (mems : List MemoryEntry)
    (user : String) (u : LearningUpdate) : ℚ × FPState :=
  let affected := find_affected_knowledge mems user u
  if affected.isEmpty then (0.3, fp)
  else
    let r := protect_loop now affected 0 fp
    (calculate_adaptive_rate r.1, r.2)

theorem protect_loop_fst_ge_init (now : ℤ) (l : List MemoryEntry) :
    ∀ (m0 : ℚ) (fp : FPState), m0 ≤ (protect_loop now l m0 fp).1 := by
  induction l with
  | nil => intro m0 fp; exact le_refl m0
  | cons memory rest ih =>
      intro m0 fp
      simp only [protect_loop]
      split
      · exact le_trans (le_max_left _ _) (ih _ _)
      · exact ih _ _

theorem protect_loop_fst_ge_score (now : ℤ) (l : List MemoryEntry)
    (x : MemoryEntry) (hx : x ∈ l) (hsc : (0.7 : ℚ) < calculate_importance now x) :
    ∀ (m0 : ℚ) (fp : FPState), calculate_importance now x ≤ (protect_loop now l m0 fp).1 := by
  induction l with
  | nil => cases hx
  | cons memory rest ih =>
      intro m0 fp
      simp only [protect_loop]
      rcases List.mem_cons.mp hx with rfl | hx'
      · rw [if_pos hsc]
        exact le_trans (le_max_right m0 _) (protect_loop_fst_ge_init now rest _ _)
      · split
        · exact ih hx' _ _
        · exact ih hx' _ _

end Forgetting

/-- C9 (confirmed): `protect_before_update` returns exactly the default rate
0.3 when `_find_affected_knowledge` returns no memory, and at most 0.3 × 0.1
when some affected memory's computed importance (base plus access and
recency bonuses, clamped at 1.0) exceeds 0.9. -/
theorem C9_adaptive_rate (fp : FPState) (now : ℤ) (mems : List MemoryEntry)
    (user : String) (u : LearningUpdate) :
    (Forgetting.find_affected_knowledge mems user u = [] →
      (Forgetting.protect_before_update fp now mems user u).1 = 0.3) ∧
    ((∃ m ∈ Forgetting.find_affected_knowledge mems user u,
        (0.9 : ℚ) < Forgetting.calculate_importance now m) →
      (Forgetting.protect_before_update fp now mems user u).1 ≤ 0.3 * 0.1) := by
  constructor
  · intro h
    unfold Forgetting.protect_before_update
    rw [h]
    rfl
  · rintro ⟨m, hm, hsc⟩
    unfold Forgetting.protect_before_update
    simp only []
    rw [if_neg (by simp [List.isEmpty_iff, List.ne_nil_of_mem hm])]
    have hmax : (0.9 : ℚ) <
        (Forgetting.protect_loop now (Forgetting.find_affected_knowledge mems user u) 0 fp).1 :=
      lt_of_lt_of_le hsc
        (Forgetting.protect_loop_fst_ge_score now _ m hm (by linarith) 0 fp)
    unfold Forgetting.calculate_adaptive_rate
    rw [if_pos hmax]

/-- Payload fixture for the C9 witness: `str(update_data)` tokenizes to
tokens including bare `beta`, which overlaps half of the affected memory's
two-token content (> 30%). -/
def c9Upd : LearningUpdate :=
  { id := "c9-u", user_id := "u", type := .knowledge_update,
    confidence := 0.8, priority := .medium,
    update_data := [("note", .str "alpha beta gamma")],
    affected_memories := ["semantic"], source := "implicit", created_at := 0 }

/-- High-importance memory fixture: base 0.95 plus the fresh-access bonus
clamps to 1.0 > 0.9. -/
def c9Mem : MemoryEntry :=
  { id := "c9-m", user_id := "u", memory_type := .semantic, content := "beta gamma",
    embedding := Option.none, importance := 0.95, access_count := 0,
    last_accessed := 0, context_tags := .arr [], metadata := .dict [] }

/-- Empty forgetting-prevention state. -/
def fpEmpty : FPState := { protected_knowledge := [], rehearsal_schedule := [] }

/-- Witness for C9: with no memories the rate is exactly 0.3; with the
affected importance-1.0 memory it is at most 0.03. -/
theorem C9_adaptive_rate_witness :
    (Forgetting.protect_before_update fpEmpty 0 [] "u" c9Upd).1 = 0.3 ∧
    (Forgetting.protect_before_update fpEmpty 0 [c9Mem] "u" c9Upd).1 ≤ 0.3 * 0.1 := by
  constructor
  · exact (C9_adaptive_rate fpEmpty 0 [] "u" c9Upd).1 (by with_unfolding_all rfl)
  · refine (C9_adaptive_rate fpEmpty 0 [c9Mem] "u" c9Upd).2 ⟨c9Mem, ?_, ?_⟩
    · have h : Forgetting.find_affected_knowledge [c9Mem] "u" c9Upd = [c9Mem] := by
        with_unfolding_all rfl
      rw [h]
      exact List.mem_singleton.mpr rfl
    · have h : Forgetting.calculate_importance 0 c9Mem = 1 := by with_unfolding_all rfl
      rw [h]
      norm_num
